import Mathlib

/-!
Shallow embedding of the serial-protocol core of EasySXB (`src/Terminal.cxx`):
the register/command framing (`Terminal::changeReg`, `jml`, `jsl`, `dump`,
`updateRegs`, `sendChar`, `sendString`, `connect`) and the two upload engines
(`Terminal::uploadHex`, `Terminal::uploadSrec`).

Modelling conventions:
* A file already opened for reading is its character content, a `List Char`;
  `fgetc` on the empty list is `EOF`.
* `fscanf(fp, "%0wX", &v)` is modelled by `scanHex w`: it skips C whitespace,
  returns `.eof` when the input ends before a digit (C return value `EOF`),
  `.noMatch` when the next character is not a hex digit (C return value `0`,
  which `Terminal.cxx` does *not* treat as an error: the variable keeps its
  previous value), and otherwise consumes up to `w` hex digits.  Sign
  characters and `0x` prefixes, which no object file contains, are not
  modelled.
* C `int` values that stay non-negative on every path are `Nat`; the S-record
  `count` variable, which `count -= 3` / `count -= 4` can drive negative, is
  an `Int`; `% 256`, `% 65536` make the `& 0xFF` / `& 0xFFFF` masks explicit.
* "Sent" means the successive strings handed to `Terminal::sendString`
  (before its `\n` to CR rewrite).  `sendString`'s 4096-byte copy buffer is
  not modelled: every record the uploaders build is far below that bound.
* The FLTK cancellation flag is state (`cancelled`); the external escape-key
  handler is a schedule `esc : Nat → Bool` telling whether the flag was set
  during the n-th `Fl::check()` call of the upload.
* The upload loops take explicit fuel.  Every iteration of the C loops
  consumes at least one character of the file, so `input.length + 1` units,
  as supplied by the wrappers `uploadHex` / `uploadSrec`, are never
  exhausted; running out of fuel would stop the loop like `EOF`.
-/

/-- C `isspace` for the characters `fscanf` skips before a `%X` field. -/
def isSpaceC (c : Char) : Bool :=
  c = ' ' || c = '\t' || c = '\n' || c = '\r' || c = '\x0b' || c = '\x0c'

/-- Hex digits accepted by `fscanf %X` (both cases, like `strtoul`). -/
def isHexDigitC (c : Char) : Bool :=
  ('0' ≤ c && c ≤ '9') || ('A' ≤ c && c ≤ 'F') || ('a' ≤ c && c ≤ 'f')

/-- Numeric value of a hex digit. -/
def hexVal (c : Char) : Nat :=
  if '0' ≤ c && c ≤ '9' then c.toNat - 48
  else if 'A' ≤ c && c ≤ 'F' then c.toNat - 55
  else c.toNat - 87

/-- Upper-case hex digit, as printed by `sprintf %X`. -/
def hexDigitC (n : Nat) : Char :=
  if n < 10 then Char.ofNat (48 + n) else Char.ofNat (55 + n)

/-- Hex digits of `n`, most significant first (fuel-based so that it is
structurally recursive; `n + 1` units always suffice). -/
def toHexAux : Nat → Nat → List Char → List Char
  | 0, _, acc => acc
  | fuel + 1, n, acc =>
    if n < 16 then hexDigitC n :: acc
    else toHexAux fuel (n / 16) (hexDigitC (n % 16) :: acc)

/-- Upper-case hex representation of `n` (at least one digit). -/
def toHexList (n : Nat) : List Char := toHexAux (n + 1) n []

/-- `sprintf "%0wX"`: hex digits of `n`, zero-padded on the left to a minimum
width of `w`; wider values keep all their digits. -/
def hexPad (w n : Nat) : List Char :=
  List.replicate (w - (toHexList n).length) '0' ++ toHexList n

/-- Result of one `fscanf %0wX` call, see the module comment. -/
inductive ScanRes where
  | eof
  | noMatch (rest : List Char)
  | ok (v : Nat) (rest : List Char)
deriving DecidableEq

/-- Consume up to `w` leading hex digits. -/
def takeHex : Nat → Nat → List Char → Nat × List Char
  | 0, acc, l => (acc, l)
  | _ + 1, acc, [] => (acc, [])
  | w + 1, acc, c :: rest =>
    if isHexDigitC c then takeHex w (16 * acc + hexVal c) rest
    else (acc, c :: rest)

/-- `fscanf(fp, "%0wX", &v)`. -/
def scanHex (w : Nat) (input : List Char) : ScanRes :=
  match input.dropWhile isSpaceC with
  | [] => .eof
  | c :: rest =>
    if isHexDigitC c then
      match takeHex w 0 (c :: rest) with
      | (v, r) => .ok v r
    else .noMatch (c :: rest)

/-- The `ret = fscanf(...); if (ret == -1 || ret == EOF) ...` idiom of
`Terminal.cxx`: `none` is the EOF/error path; a match failure (`ret == 0`) is
not checked by the C code, so the variable keeps its old value `old`. -/
def scanUpd (w old : Nat) (input : List Char) : Option (Nat × List Char) :=
  match scanHex w input with
  | .eof => none
  | .noMatch r => some (old, r)
  | .ok v r => some (v, r)

/-- `scanUpd` for a variable the C code declares as `int` holding possibly
negative values (the S-record `count`). -/
def scanUpdI (w : Nat) (old : Int) (input : List Char) :
    Option (Int × List Char) :=
  match scanHex w input with
  | .eof => none
  | .noMatch r => some (old, r)
  | .ok v r => some ((v : Int), r)

/-- The "skip to next line" loop of both uploaders: up to 256 `fgetc` calls,
stopping after consuming a newline (`fgetc` at EOF consumes nothing). -/
def skipLine : Nat → List Char → List Char
  | 0, l => l
  | _ + 1, [] => []
  | n + 1, c :: rest => if c = '\n' then rest else skipLine n rest

/-- Checksum byte of a HEX-path load record (`Terminal.cxx:731-766`): the C
code accumulates `count + 4`, `address >> 8` (unmasked), `address & 0xFF` and
the data bytes, then emits `0xFF - (checksum & 0xFF)`. -/
def hexLoadChecksumByte (count address : Nat) (data : List Nat) : Nat :=
  255 - ((count + 4 + (address >>> 8) + address % 256 + data.sum) % 256)

/-- The load record `uploadHex` builds for an Intel-HEX data record:
`sprintf(s, "S2%02X%02X%02X%02X", count + 4, segment, (address >> 8) & 0xFF,
address & 0xFF)`, the data bytes, the checksum byte, `\n`. -/
def mkHexLoadRecord (count segment address : Nat) (data : List Nat) :
    List Char :=
  'S' :: '2' ::
    (hexPad 2 (count + 4) ++ hexPad 2 segment ++
     hexPad 2 ((address >>> 8) % 256) ++ hexPad 2 (address % 256) ++
     (data.map (hexPad 2)).flatten ++
     hexPad 2 (hexLoadChecksumByte count address data) ++ ['\n'])

/-- Checksum byte of an S-record-path load record (`Terminal.cxx:893-921`);
`cnt` is the already adjusted (possibly negative) `count` variable. -/
def srecLoadChecksumByte (cnt : Int) (address : Nat) (data : List Nat) :
    Nat :=
  255 - (((cnt + 4).toNat + (address >>> 8) + address % 256 + data.sum) % 256)

/-- The load record `uploadSrec` builds: `sprintf(s, "S2%02X%02X%02X%02X",
count + 4, (address >> 16) & 0xFF, (address >> 8) & 0xFF, address & 0xFF)`,
the data bytes, the checksum byte (which adds the unmasked `address >> 8`),
`\n`. -/
def mkSrecLoadRecord (cnt : Int) (address : Nat) (data : List Nat) :
    List Char :=
  'S' :: '2' ::
    (hexPad 2 (cnt + 4).toNat ++ hexPad 2 ((address >>> 16) % 256) ++
     hexPad 2 ((address >>> 8) % 256) ++ hexPad 2 (address % 256) ++
     (data.map (hexPad 2)).flatten ++
     hexPad 2 (srecLoadChecksumByte cnt address data) ++ ['\n'])

/-- The terminator record both uploaders send after their loop
(`Terminal.cxx:795-796` and `948-949`). -/
def terminatorRecord : List Char := "S804000000FB\n".data

/-- The data-byte loop shared by both uploaders (`Terminal.cxx:744-757` and
`905-918`): `n` times `fscanf(fp, "%02X", &value)`, appending each scanned
byte (on a match failure the stale `value`, faithful to the unchecked
`ret == 0` case).  Returns the final `value` variable, the bytes gathered,
the rest of the input, and whether `fscanf` hit EOF (`ret == -1`). -/
def scanDataBytes (value : Nat) : Nat → List Char →
    Nat × List Nat × List Char × Bool
  | 0, input => (value, [], input, false)
  | n + 1, input =>
    match scanHex 2 input with
    | .eof => (value, [], input, true)
    | .noMatch r =>
      match scanDataBytes value n r with
      | (v2, d, r2, e) => (v2, value :: d, r2, e)
    | .ok v r =>
      match scanDataBytes v n r with
      | (v2, d, r2, e) => (v2, v :: d, r2, e)

/-- State of `Terminal::uploadHex`: its local variables that survive a loop
iteration, plus the observable outputs (records sent, `fileError()` dialogs,
cancellation flag, number of `Fl::check()` calls made so far). -/
structure HexSt where
  count : Nat
  address : Nat
  code : Nat
  value : Nat
  segment : Nat
  startAddr : Int
  sent : List (List Char)
  errors : Nat
  cancelled : Bool
  checkIdx : Nat
deriving DecidableEq

/-- Lines 729-772 of `Terminal.cxx`: a `code == 0x00` data record.  On EOF in
the data loop the record is *not* sent (`cancel == true` path); otherwise the
load record is sent.  The `Bool` is the C `break` out of the `while`. -/
def hexEmit (st : HexSt) (input : List Char) : HexSt × List Char × Bool :=
  match scanDataBytes st.value st.count input with
  | (v2, _, r2, true) =>
    ({ st with value := v2, errors := st.errors + 1 }, r2, true)
  | (v2, d, r2, false) =>
    ({ st with value := v2,
               sent := st.sent ++
                 [mkHexLoadRecord st.count st.segment st.address d] },
     r2, false)

/-- Lines 690-773 of `Terminal.cxx`: one `:` record, from the byte-count scan
through the record-type dispatch.  `segment` has already been reset by the
caller (line 690 runs before the scan).  The `Bool` is the C `break`. -/
def hexRecord (st : HexSt) (input : List Char) : HexSt × List Char × Bool :=
  match scanUpd 2 st.count input with
  | none => ({ st with errors := st.errors + 1 }, input, true)
  | some (cnt, r1) =>
    if cnt = 0 then ({ st with count := cnt }, r1, true)
    else
      match scanUpd 4 st.address r1 with
      | none => ({ st with count := cnt, errors := st.errors + 1 }, r1, true)
      | some (addr, r2) =>
        let sa := if st.startAddr = -1 then (addr : Int) else st.startAddr
        match scanUpd 2 st.code r2 with
        | none =>
          ({ st with count := cnt, address := addr, startAddr := sa,
                     errors := st.errors + 1 }, r2, true)
        | some (cd, r3) =>
          if cd = 4 then
            ({ st with count := cnt, address := addr, startAddr := sa,
                       code := cd, segment := addr }, r3, false)
          else if cd = 0 then
            hexEmit { st with count := cnt, address := addr, startAddr := sa,
                              code := cd } r3
          else
            ({ st with count := cnt, address := addr, startAddr := sa,
                       code := cd }, r3, false)

/-- The `while (1)` loop of `Terminal::uploadHex` (lines 680-793).  Each
iteration reads one character; `:` starts a record (resetting `segment`,
line 690), records that do not `break` are followed by the skip-to-newline
loop, one `Fl::check()` (the `esc` schedule) and the cancellation test. -/
def uploadHexLoop (esc : Nat → Bool) : Nat → HexSt → List Char → HexSt
  | 0, st, _ => st
  | _ + 1, st, [] => st
  | fuel + 1, st, c :: rest =>
    if c = ':' then
      match hexRecord { st with segment := 0 } rest with
      | (st1, _, true) => st1
      | (st1, rest1, false) =>
        let rest2 := skipLine 256 rest1
        let obs := st1.cancelled || esc st1.checkIdx
        let st2 := { st1 with checkIdx := st1.checkIdx + 1 }
        if obs then { st2 with cancelled := false }
        else uploadHexLoop esc fuel st2 rest2
    else uploadHexLoop esc fuel st rest

/-- Observable outcome of an upload: the record strings handed to
`sendString`, the number of `fileError()` dialogs, the address passed to
`Gui::setAddress`, and the cancellation flag afterwards. -/
structure UploadOut where
  sent : List (List Char)
  errors : Nat
  startAddr : Int
  cancelled : Bool
deriving DecidableEq

/-- Initial local-variable state of `Terminal::uploadHex`. -/
def hexInit : HexSt :=
  { count := 0, address := 0, code := 0, value := 0, segment := 0,
    startAddr := -1, sent := [], errors := 0, cancelled := false,
    checkIdx := 0 }

/-- `Terminal::uploadHex` on an already opened file `input`: run the record
loop, then unconditionally send the terminator record and report the start
address (lines 795-799). -/
def uploadHex (input : List Char) (esc : Nat → Bool) : UploadOut :=
  let st := uploadHexLoop esc (input.length + 1) hexInit input
  { sent := st.sent ++ [terminatorRecord], errors := st.errors,
    startAddr := st.startAddr, cancelled := st.cancelled }

/-- State of `Terminal::uploadSrec`: its surviving local variables (`code` is
recomputed from the prefix on every iteration and so is not state) plus the
observable outputs. -/
structure SrecSt where
  count : Int
  address : Nat
  value : Nat
  startAddr : Int
  sent : List (List Char)
  errors : Nat
  cancelled : Bool
  checkIdx : Nat
deriving DecidableEq

/-- Lines 893-926 of `Terminal.cxx`: build and send the load record for an
S1/S2 record.  An EOF inside the data loop calls `fileError()` but only
breaks the `for` loop, so the partially assembled record is still sent and
the `while` loop continues (the `Bool` break flag is `false` here). -/
def srecEmit (st : SrecSt) (cnt : Int) (addr : Nat) (sa : Int)
    (input : List Char) : SrecSt × List Char × Bool :=
  match scanDataBytes st.value cnt.toNat input with
  | (v2, d, r2, eofF) =>
    ({ st with count := cnt, address := addr, startAddr := sa, value := v2,
               errors := st.errors + (if eofF then 1 else 0),
               sent := st.sent ++ [mkSrecLoadRecord cnt addr d] },
     r2, false)

/-- Lines 842-927 of `Terminal.cxx`: one S-record after its two prefix
characters, from the byte-count scan onwards.  Only `code == 1` subtracts 3
and only `code == 2` subtracts 4 from the count; `code == 0` records with a
nonzero count fall through without emitting.  The `Bool` is the C `break`. -/
def srecRecord (st : SrecSt) (code : Int) (input : List Char) :
    SrecSt × List Char × Bool :=
  match scanUpdI 2 st.count input with
  | none => ({ st with errors := st.errors + 1 }, input, true)
  | some (c0, r1) =>
    let cnt := if code = 1 then c0 - 3 else if code = 2 then c0 - 4 else c0
    if cnt = 0 then ({ st with count := cnt }, r1, true)
    else if 0 < code then
      if code = 1 then
        match scanUpd 4 st.address r1 with
        | none =>
          ({ st with count := cnt, errors := st.errors + 1 }, r1, true)
        | some (addr, r2) =>
          srecEmit st cnt addr
            (if st.startAddr = -1 then (addr : Int) else st.startAddr) r2
      else if code = 2 then
        match scanUpd 6 st.address r1 with
        | none =>
          ({ st with count := cnt, errors := st.errors + 1 }, r1, true)
        | some (addr, r2) =>
          srecEmit st cnt addr
            (if st.startAddr = -1 then (addr : Int) else st.startAddr) r2
      else ({ st with count := cnt }, r1, true)
    else ({ st with count := cnt }, r1, false)

/-- The `while (1)` loop of `Terminal::uploadSrec` (lines 824-946).  Two
`fgetc` calls read the prefix (EOF on either breaks); any first character is
accepted, the second minus `'0'` is the record type, outside `0..2` breaks;
non-breaking records are followed by skip-to-newline, one `Fl::check()` and
the cancellation test. -/
def uploadSrecLoop (esc : Nat → Bool) : Nat → SrecSt → List Char → SrecSt
  | 0, st, _ => st
  | _ + 1, st, [] => st
  | _ + 1, st, [_] => st
  | fuel + 1, st, _ :: c1 :: rest =>
    let code : Int := (c1.toNat : Int) - 48
    if code < 0 ∨ 2 < code then st
    else
      match srecRecord st code rest with
      | (st1, _, true) => st1
      | (st1, rest1, false) =>
        let rest2 := skipLine 256 rest1
        let obs := st1.cancelled || esc st1.checkIdx
        let st2 := { st1 with checkIdx := st1.checkIdx + 1 }
        if obs then { st2 with cancelled := false }
        else uploadSrecLoop esc fuel st2 rest2

/-- Initial local-variable state of `Terminal::uploadSrec`. -/
def srecInit : SrecSt :=
  { count := 0, address := 0, value := 0, startAddr := -1, sent := [],
    errors := 0, cancelled := false, checkIdx := 0 }

/-- `Terminal::uploadSrec` on an already opened file `input`: run the record
loop, then unconditionally send the terminator record and report the start
address (lines 948-952). -/
def uploadSrec (input : List Char) (esc : Nat → Bool) : UploadOut :=
  let st := uploadSrecLoop esc (input.length + 1) srecInit input
  { sent := st.sent ++ [terminatorRecord], errors := st.errors,
    startAddr := st.startAddr, cancelled := st.cancelled }

/-- Escape-key schedule under which the user never cancels. -/
def noCancel : Nat → Bool := fun _ => false

/-- Escape-key schedule that sets the cancellation flag during the second
`Fl::check()` call, i.e. after the second record and before the third. -/
def cancelAtSecondCheck : Nat → Bool := fun k => k == 1

/-- The process-wide `connected` flag guarding every Terminal operation. -/
structure ConnSt where
  connected : Bool
deriving DecidableEq

/-- `Gui::getMode()`: the two firmware dialects (`MODE_265` = dialect A,
`MODE_134` = dialect B). -/
inductive Mode where
  | mode265
  | mode134
deriving DecidableEq

/-- The register selector passed to `Terminal::changeReg`. -/
inductive RegSel where
  | pc
  | a
  | x
  | y
  | sp
  | dp
  | sr
  | db
deriving DecidableEq

/-- The `\n` to carriage-return rewrite `sendString` applies to its buffer
(`Terminal.cxx:317-321`). -/
def crTranslate (s : List Char) : List Char :=
  s.map fun c => if c = '\n' then '\r' else c

/-- `Terminal::sendChar`: when connected, transmit the byte (newline turned
into CR); otherwise transmit nothing (`Terminal.cxx:245-270`). -/
def sendChar (st : ConnSt) (c : Char) : ConnSt × List Char :=
  if st.connected then (st, [if c = '\n' then '\r' else c]) else (st, [])

/-- `Terminal::sendString`: when connected, transmit the CR-translated
buffer; otherwise transmit nothing (`Terminal.cxx:310-333`). -/
def sendString (st : ConnSt) (s : List Char) : ConnSt × List (List Char) :=
  if st.connected then (st, [crTranslate s]) else (st, [])

/-- The dialect-A (`MODE_265`) register-set command string of
`Terminal.cxx:437-471`; `n` is the already clamped non-negative value. -/
def regCmdA (reg : RegSel) (n : Nat) : List Char :=
  match reg with
  | .pc => '|' :: 'P' :: (hexPad 2 (n >>> 16) ++ ':' :: hexPad 4 (n % 65536))
  | .a => '|' :: 'A' :: hexPad 4 n
  | .x => '|' :: 'X' :: hexPad 4 n
  | .y => '|' :: 'Y' :: hexPad 4 n
  | .sp => '|' :: 'S' :: hexPad 4 n
  | .dp => '|' :: 'D' :: hexPad 4 n
  | .sr => '|' :: 'F' :: hexPad 2 n
  | .db => '|' :: 'B' :: hexPad 2 n

/-- The dialect-B (`MODE_134`) register-set command string of
`Terminal.cxx:480-506`: the value is printed into fixed columns of a
space-padded command.  Only the program counter masks with `& 0xFFFF` and
only the status register with `& 0xFF`; the remaining registers print the
value with `%02X` unmasked.  `REG_DP` and `REG_DB` have no case in the C
switch. -/
def regCmdB (reg : RegSel) (n : Nat) : Option (List Char) :=
  match reg with
  | .pc => some ('A' :: (hexPad 4 (n % 65536) ++ [' ', ' ', ' ', ' ', ' ']))
  | .sr => some ('A' :: ' ' :: (hexPad 2 (n % 256) ++ [' ', ' ', ' ', ' ']))
  | .a => some ('A' :: ' ' :: ' ' :: (hexPad 2 n ++ [' ', ' ', ' ']))
  | .x => some ('A' :: ' ' :: ' ' :: ' ' :: (hexPad 2 n ++ [' ', ' ']))
  | .y => some ('A' :: ' ' :: ' ' :: ' ' :: ' ' :: (hexPad 2 n ++ [' ']))
  | .sp => some ('A' :: ' ' :: ' ' :: ' ' :: ' ' :: ' ' :: hexPad 2 n)
  | _ => none

/-- `Terminal::changeReg` (`Terminal.cxx:425-513`): a no-op when not
connected; otherwise clamp the value to `≥ 0`, send the dialect-specific
command (if the register has one) and then the bare commit `R`. -/
def changeReg (st : ConnSt) (mode : Mode) (reg : RegSel) (num : Int) :
    ConnSt × List (List Char) :=
  if st.connected = false then (st, [])
  else
    let n := num.toNat
    let cmds : List (List Char) :=
      match mode with
      | .mode265 => [regCmdA reg n]
      | .mode134 =>
        match regCmdB reg n with
        | some c => [c]
        | none => []
    (st, cmds ++ [['R']])

/-- `Terminal::updateRegs` (`Terminal.cxx:515-535`): a no-op when not
connected; otherwise send the dialect's report-registers query. -/
def updateRegs (st : ConnSt) (mode : Mode) : ConnSt × List (List Char) :=
  if st.connected = false then (st, [])
  else
    match mode with
    | .mode265 => (st, [['|', ' ']])
    | .mode134 => (st, [['R']])

/-- `Terminal::jml` (`Terminal.cxx:537-559`): a no-op when not connected;
otherwise clamp the address and send `G` then the dialect-sized address. -/
def jml (st : ConnSt) (mode : Mode) (address : Int) :
    ConnSt × List (List Char) :=
  if st.connected = false then (st, [])
  else
    let a := address.toNat
    match mode with
    | .mode265 => (st, [['G'], hexPad 2 (a >>> 16) ++ hexPad 4 (a % 65536)])
    | .mode134 => (st, [['G'], hexPad 4 (a % 65536)])

/-- `Terminal::jsl` (`Terminal.cxx:561-583`): like `jml` with `J`. -/
def jsl (st : ConnSt) (mode : Mode) (address : Int) :
    ConnSt × List (List Char) :=
  if st.connected = false then (st, [])
  else
    let a := address.toNat
    match mode with
    | .mode265 => (st, [['J'], hexPad 2 (a >>> 16) ++ hexPad 4 (a % 65536)])
    | .mode134 => (st, [['J'], hexPad 4 (a % 65536)])

/-- `Terminal::dump` (`Terminal.cxx:585-614`): a no-op when not connected;
otherwise send `D` and the dialect-sized 256-byte range bounds. -/
def dump (st : ConnSt) (mode : Mode) (address : Int) :
    ConnSt × List (List Char) :=
  if st.connected = false then (st, [])
  else
    let a := address.toNat
    match mode with
    | .mode265 =>
      (st, [['D'], hexPad 2 (a >>> 16) ++ hexPad 4 (a % 65536),
            hexPad 2 ((a + 255) >>> 16) ++ hexPad 4 ((a + 255) % 65536) ++
              ['\n']])
    | .mode134 =>
      (st, [['D'], hexPad 4 (a % 65536) ++ hexPad 4 ((a + 255) % 65536)])

/-- `Terminal::connect` (POSIX branch, `Terminal.cxx:181-223`): if the port
cannot be opened or configured the function returns with the connection
state untouched; only full success sets `connected`. -/
def connect (st : ConnSt) (openOk cfgOk : Bool) : ConnSt :=
  if openOk = false then st
  else if cfgOk = false then st
  else { connected := true }

lemma toHexAux_length_ge : ∀ (fuel n : Nat) (acc : List Char), n < fuel →
    acc.length + 1 ≤ (toHexAux fuel n acc).length := by
  intro fuel
  induction fuel with
  | zero => intro n acc h; omega
  | succ f ih =>
    intro n acc h
    by_cases h16 : n < 16
    · simp [toHexAux, h16]
    · have hdiv : n / 16 < n := Nat.div_lt_self (by omega) (by omega)
      have := ih (n / 16) (hexDigitC (n % 16) :: acc) (by omega)
      simp only [toHexAux, if_neg h16]
      simp at this
      omega

lemma toHexAux_length_ge2 (fuel n : Nat) (acc : List Char) (h : n < fuel)
    (h16 : 16 ≤ n) : acc.length + 2 ≤ (toHexAux fuel n acc).length := by
  match fuel with
  | f + 1 =>
    have hdiv : n / 16 < n := Nat.div_lt_self (by omega) (by omega)
    have := toHexAux_length_ge f (n / 16) (hexDigitC (n % 16) :: acc)
      (by omega)
    simp only [toHexAux, if_neg (by omega : ¬ n < 16)]
    simp at this
    omega

lemma toHexAux_length_ge3 (fuel n : Nat) (acc : List Char) (h : n < fuel)
    (h256 : 256 ≤ n) : acc.length + 3 ≤ (toHexAux fuel n acc).length := by
  match fuel with
  | f + 1 =>
    have hdiv : n / 16 < n := Nat.div_lt_self (by omega) (by omega)
    have hge : 16 ≤ n / 16 := by omega
    have := toHexAux_length_ge2 f (n / 16) (hexDigitC (n % 16) :: acc)
      (by omega) hge
    simp only [toHexAux, if_neg (by omega : ¬ n < 16)]
    simp at this
    omega

lemma toHexAux_length_le : ∀ (k fuel n : Nat) (acc : List Char), n < fuel →
    n < 16 ^ k → 1 ≤ k → (toHexAux fuel n acc).length ≤ acc.length + k := by
  intro k
  induction k with
  | zero => intro fuel n acc _ _ h; omega
  | succ k ih =>
    intro fuel n acc hfuel hn _
    match fuel with
    | f + 1 =>
      by_cases h16 : n < 16
      · simp [toHexAux, h16]; try omega
      · have hk : 1 ≤ k := by
          rcases Nat.eq_zero_or_pos k with hk0 | hk0
          · subst hk0; simp [pow_one] at hn; omega
          · omega
        have hdiv : n / 16 < n := Nat.div_lt_self (by omega) (by omega)
        have hdivpow : n / 16 < 16 ^ k := by
          rw [Nat.div_lt_iff_lt_mul (by omega : 0 < 16)]
          calc n < 16 ^ (k + 1) := hn
            _ = 16 ^ k * 16 := by rw [pow_succ]
        have := ih f (n / 16) (hexDigitC (n % 16) :: acc) (by omega)
          hdivpow hk
        simp only [toHexAux, if_neg h16]
        simp at this
        omega

lemma toHexList_length_le2 (n : Nat) (h : n < 256) :
    (toHexList n).length ≤ 2 := by
  have := toHexAux_length_le 2 (n + 1) n [] (by omega)
    (by norm_num; omega) (by omega)
  simpa [toHexList] using this

lemma toHexList_length_le4 (n : Nat) (h : n < 65536) :
    (toHexList n).length ≤ 4 := by
  have := toHexAux_length_le 4 (n + 1) n [] (by omega)
    (by norm_num; omega) (by omega)
  simpa [toHexList] using this

lemma toHexList_length_ge3 (n : Nat) (h : 256 ≤ n) :
    3 ≤ (toHexList n).length := by
  have := toHexAux_length_ge3 (n + 1) n [] (by omega) h
  simpa [toHexList] using this

lemma hexPad_length (w n : Nat) :
    (hexPad w n).length = (w - (toHexList n).length) + (toHexList n).length :=
  by simp [hexPad]

lemma hexPad2_length (n : Nat) (h : n < 256) : (hexPad 2 n).length = 2 := by
  have := toHexList_length_le2 n h
  rw [hexPad_length]; omega

lemma hexPad4_length (n : Nat) (h : n < 65536) : (hexPad 4 n).length = 4 := by
  have := toHexList_length_le4 n h
  rw [hexPad_length]; omega

lemma hexPad2_length_gt (n : Nat) (h : 255 < n) : 2 < (hexPad 2 n).length := by
  have := toHexList_length_ge3 n (by omega)
  rw [hexPad_length]; omega

lemma mkHexLoadRecord_take_two (c g a : Nat) (d : List Nat) :
    (mkHexLoadRecord c g a d).take 2 = ['S', '2'] := rfl

lemma mkSrecLoadRecord_take_two (c : Int) (a : Nat) (d : List Nat) :
    (mkSrecLoadRecord c a d).take 2 = ['S', '2'] := rfl

lemma hexEmit_sent (st : HexSt) (input : List Char) :
    ∀ r ∈ (hexEmit st input).1.sent, r ∈ st.sent ∨ r.take 2 = ['S', '2'] := by
  intro r hr
  unfold hexEmit at hr
  repeat' first | split at hr | simp only [] at hr
  all_goals
    first
    | exact Or.inl hr
    | (rcases (List.mem_append.mp hr) with h | h
       · exact Or.inl h
       · exact Or.inr ((List.mem_singleton.mp h) ▸
           mkHexLoadRecord_take_two _ _ _ _))

lemma hexRecord_sent (st : HexSt) (input : List Char) :
    ∀ r ∈ (hexRecord st input).1.sent,
      r ∈ st.sent ∨ r.take 2 = ['S', '2'] := by
  intro r hr
  unfold hexRecord at hr
  repeat' first | split at hr | simp only [] at hr
  all_goals
    first
    | exact Or.inl hr
    | (have h2 := hexEmit_sent _ _ r hr
       exact h2)

lemma srecEmit_sent (st : SrecSt) (cnt : Int) (addr : Nat) (sa : Int)
    (input : List Char) :
    ∀ r ∈ (srecEmit st cnt addr sa input).1.sent,
      r ∈ st.sent ∨ r.take 2 = ['S', '2'] := by
  intro r hr
  unfold srecEmit at hr
  repeat' first | split at hr | simp only [] at hr
  all_goals
    (rcases (List.mem_append.mp hr) with h | h
     · exact Or.inl h
     · exact Or.inr ((List.mem_singleton.mp h) ▸
         mkSrecLoadRecord_take_two _ _ _))

lemma srecRecord_sent (st : SrecSt) (code : Int) (input : List Char) :
    ∀ r ∈ (srecRecord st code input).1.sent,
      r ∈ st.sent ∨ r.take 2 = ['S', '2'] := by
  intro r hr
  unfold srecRecord at hr
  repeat' first | split at hr | simp only [] at hr
  all_goals
    first
    | exact Or.inl hr
    | (have h2 := srecEmit_sent _ _ _ _ _ r hr
       exact h2)

lemma uploadHexLoop_sent (esc : Nat → Bool) : ∀ (fuel : Nat) (st : HexSt)
    (input : List Char),
    (∀ r ∈ st.sent, r.take 2 = ['S', '2']) →
    ∀ r ∈ (uploadHexLoop esc fuel st input).sent, r.take 2 = ['S', '2'] := by
  intro fuel
  induction fuel with
  | zero => intro st input h; simpa [uploadHexLoop] using h
  | succ f ih =>
    intro st input h
    match input with
    | [] => simpa [uploadHexLoop] using h
    | c :: rest =>
      intro r hr
      simp only [uploadHexLoop] at hr
      split at hr
      · rcases hrec : hexRecord { st with segment := 0 } rest
          with ⟨st1, rest1, b⟩
        rw [hrec] at hr
        have hst1 : ∀ q ∈ st1.sent, q.take 2 = ['S', '2'] := by
          intro q hq
          rcases hexRecord_sent { st with segment := 0 } rest q
              (by rw [hrec]; exact hq) with hmem | h2
          · exact h q hmem
          · exact h2
        cases b
        · simp only at hr
          split at hr
          · exact hst1 r hr
          · exact ih { st1 with checkIdx := st1.checkIdx + 1 }
              (skipLine 256 rest1) hst1 r hr
        · exact hst1 r hr
      · exact ih st rest h r hr

lemma uploadSrecLoop_sent (esc : Nat → Bool) : ∀ (fuel : Nat) (st : SrecSt)
    (input : List Char),
    (∀ r ∈ st.sent, r.take 2 = ['S', '2']) →
    ∀ r ∈ (uploadSrecLoop esc fuel st input).sent, r.take 2 = ['S', '2'] := by
  intro fuel
  induction fuel with
  | zero => intro st input h; simpa [uploadSrecLoop] using h
  | succ f ih =>
    intro st input h
    match input with
    | [] => simpa [uploadSrecLoop] using h
    | [c] => simpa [uploadSrecLoop] using h
    | c0 :: c1 :: rest =>
      intro r hr
      simp only [uploadSrecLoop] at hr
      split at hr
      · exact h r hr
      · rcases hrec : srecRecord st ((c1.toNat : Int) - 48) rest
          with ⟨st1, rest1, b⟩
        rw [hrec] at hr
        have hst1 : ∀ q ∈ st1.sent, q.take 2 = ['S', '2'] := by
          intro q hq
          rcases srecRecord_sent st ((c1.toNat : Int) - 48) rest q
              (by rw [hrec]; exact hq) with hmem | h2
          · exact h q hmem
          · exact h2
        cases b
        · simp only at hr
          split at hr
          · exact hst1 r hr
          · exact ih { st1 with checkIdx := st1.checkIdx + 1 }
              (skipLine 256 rest1) hst1 r hr
        · exact hst1 r hr

lemma srecRecord_startAddr (st : SrecSt) (code : Int) (input : List Char)
    (h : st.startAddr ≠ -1) :
    (srecRecord st code input).1.startAddr = st.startAddr := by
  unfold srecRecord srecEmit
  repeat' first | split | simp only []

lemma uploadSrecLoop_startAddr (esc : Nat → Bool) : ∀ (fuel : Nat)
    (st : SrecSt) (input : List Char), st.startAddr ≠ -1 →
    (uploadSrecLoop esc fuel st input).startAddr = st.startAddr := by
  intro fuel
  induction fuel with
  | zero => intro st input h; simp [uploadSrecLoop]
  | succ f ih =>
    intro st input h
    match input with
    | [] => simp [uploadSrecLoop]
    | [c] => simp [uploadSrecLoop]
    | c0 :: c1 :: rest =>
      simp only [uploadSrecLoop]
      split
      · rfl
      · rcases hrec : srecRecord st ((c1.toNat : Int) - 48) rest
          with ⟨st1, rest1, b⟩
        have h1 : st1.startAddr = st.startAddr := by
          have := srecRecord_startAddr st ((c1.toNat : Int) - 48) rest h
          rw [hrec] at this
          exact this
        cases b
        · simp only
          split
          · exact h1
          · exact (ih { st1 with checkIdx := st1.checkIdx + 1 }
              (skipLine 256 rest1) (by simpa [h1] using h)).trans h1
        · exact h1

/-- Claim C1 (code bug): the spec says a `0x04` record's segment is used as
the high address byte of subsequent data records until replaced, but
`uploadHex` resets `segment` to 0 at the start of every record line
(`Terminal.cxx:690`), making the `segment = address` assignment of the
`0x04` branch dead: after a `0x04` record with segment value `0x0001`, the
data record at offset `0x8000` is emitted with high address byte `00`
(record `S206008000010276`), not `01`. -/
theorem claim_c1_hex_segment_reset :
    uploadHex (":020001040000F9\n:0280000001027B\n:00000001FF\n".data)
        noCancel =
      { sent := ["S206008000010276\n".data, terminatorRecord],
        errors := 0, startAddr := 1, cancelled := false } := by decide

/-- Claim C2 (code bug): the spec says a mid-record parse failure sends no
further load record, but in `uploadSrec` an EOF inside the data-byte loop
only breaks the inner `for` (`Terminal.cxx:909-913`): on the truncated file
`S105800001` (two data bytes declared, one present) the error is logged
*and* the partially assembled record `S2060080000178` is still sent before
the terminator. -/
theorem claim_c2_srec_partial_record_sent :
    uploadSrec ("S105800001".data) noCancel =
      { sent := ["S2060080000178\n".data, terminatorRecord],
        errors := 1, startAddr := 32768, cancelled := false } := by decide

/-- Claim C3: for every upload that gets past opening the file — any file
content and any cancellation schedule, hence normal EOF, cancellation and
parse-error exits alike — both engines send the terminator record
`S804000000FB\n` exactly once, as the last record. -/
theorem claim_c3_terminator_always_once (input : List Char)
    (esc : Nat → Bool) :
    ((uploadHex input esc).sent.count terminatorRecord = 1 ∧
      (uploadHex input esc).sent.getLast? = some terminatorRecord) ∧
    ((uploadSrec input esc).sent.count terminatorRecord = 1 ∧
      (uploadSrec input esc).sent.getLast? = some terminatorRecord) := by
  have hterm : ¬ (terminatorRecord.take 2 = ['S', '2']) := by decide
  refine ⟨⟨?_, ?_⟩, ⟨?_, ?_⟩⟩
  · have hs2 := uploadHexLoop_sent esc (input.length + 1) hexInit input
      (by intro r hr; simp [hexInit] at hr)
    have hnot : terminatorRecord ∉
        (uploadHexLoop esc (input.length + 1) hexInit input).sent :=
      fun hmem => hterm (hs2 _ hmem)
    simp [uploadHex, List.count_append, List.count_eq_zero.mpr hnot]
  · simp [uploadHex, List.getLast?_concat]
  · have hs2 := uploadSrecLoop_sent esc (input.length + 1) srecInit input
      (by intro r hr; simp [srecInit] at hr)
    have hnot : terminatorRecord ∉
        (uploadSrecLoop esc (input.length + 1) srecInit input).sent :=
      fun hmem => hterm (hs2 _ hmem)
    simp [uploadSrec, List.count_append, List.count_eq_zero.mpr hnot]
  · simp [uploadSrec, List.getLast?_concat]

/-- Claim C4: for every HEX data record the emitted checksum byte equals
`(0xFF - ((len + 4 + addrHi + addrLo + sum of data) & 0xFF)) & 0xFF` with
`addrHi`/`addrLo` the bytes of the 16-bit offset, and the record with
address `0x8000` and data `{0x01, 0x02}` carries length byte `06`
(full record `S206008000010276`). -/
theorem claim_c4_hex_checksum_formula :
    (∀ (count address : Nat) (data : List Nat), address < 65536 →
      hexLoadChecksumByte count address data =
        (255 - ((count + 4 + ((address >>> 8) &&& 255) + (address &&& 255) +
          data.sum) &&& 255)) &&& 255) ∧
    mkHexLoadRecord 2 0 32768 [1, 2] = "S206008000010276\n".data := by
  constructor
  · intro count address data h
    have h255 : ∀ x : Nat, x &&& 255 = x % 256 := fun x => by
      have := Nat.and_pow_two_sub_one_eq_mod x 8
      norm_num at this
      exact this
    simp only [hexLoadChecksumByte, h255, Nat.shiftRight_eq_div_pow,
      show (2 : Nat) ^ 8 = 256 from by norm_num]
    omega
  · decide

/-- Witness for claim C4 at the concrete record of the claim. -/
theorem claim_c4_witness :
    hexLoadChecksumByte 2 32768 [1, 2] =
      (255 - ((2 + 4 + ((32768 >>> 8) &&& 255) + (32768 &&& 255) +
        [1, 2].sum) &&& 255)) &&& 255 :=
  claim_c4_hex_checksum_formula.1 2 32768 [1, 2] (by decide)

/-- Claim C5: an S-record upload whose first addressed record is a type-2
record at `0x018000` reports start address `0x018000` (= 98304) — concretely,
and via the invariant that a captured start address is never overwritten —
and for every type-2 record the checksum folds only the low 16 bits of the
24-bit address (the bank contributes nothing modulo 256), although the bank
byte is emitted as the record's high address byte (`01` in the concrete
record `S2050180001169`). -/
theorem claim_c5_srec_type2_address_checksum :
    ((uploadSrec ("S2050180001168\n".data) noCancel).startAddr = 98304 ∧
      (uploadSrec ("S2050180001168\n".data) noCancel).sent =
        ["S2050180001169\n".data, terminatorRecord]) ∧
    (∀ (cnt : Int) (address : Nat) (data : List Nat),
      srecLoadChecksumByte cnt address data =
        srecLoadChecksumByte cnt (address % 65536) data) ∧
    (∀ (esc : Nat → Bool) (fuel : Nat) (st : SrecSt) (input : List Char),
      st.startAddr ≠ -1 →
      (uploadSrecLoop esc fuel st input).startAddr = st.startAddr) := by
  refine ⟨⟨by decide, by decide⟩, ?_, uploadSrecLoop_startAddr⟩
  intro cnt address data
  simp only [srecLoadChecksumByte, Nat.shiftRight_eq_div_pow,
    show (2 : Nat) ^ 8 = 256 from by norm_num]
  omega

/-- Witness for claim C5: the start-address preservation part at a concrete
state and input. -/
theorem claim_c5_witness :
    (uploadSrecLoop noCancel 2
        { count := 0, address := 0, value := 0, startAddr := 7, sent := [],
          errors := 0, cancelled := false, checkIdx := 0 }
        ("S1048000AAD1\n".data)).startAddr = 7 :=
  claim_c5_srec_type2_address_checksum.2.2 noCancel 2 _ _ (by decide)

/-- Claim C6: the cancellation flag is polled once after each record; with
the flag set during the second check (before record 3 of 5) both engines
send exactly 2 data load records plus the terminator and clear the flag,
while without cancellation all 5 records are sent. -/
theorem claim_c6_cancellation_flag :
    (uploadHex
        (":0110000011DE\n:0110010022DD\n:0110020033DC\n:0110030044DB\n:0110040055DA\n:00000001FF\n".data)
        cancelAtSecondCheck =
      { sent := ["S20500100011D9\n".data, "S20500100122C7\n".data,
          terminatorRecord],
        errors := 0, startAddr := 4096, cancelled := false }) ∧
    ((uploadHex
        (":0110000011DE\n:0110010022DD\n:0110020033DC\n:0110030044DB\n:0110040055DA\n:00000001FF\n".data)
        noCancel).sent =
      ["S20500100011D9\n".data, "S20500100122C7\n".data,
        "S20500100233B5\n".data, "S20500100344A3\n".data,
        "S2050010045591\n".data, terminatorRecord]) ∧
    (uploadSrec
        ("S104100011DA\nS104100122D8\nS104100233D6\nS104100344D4\nS104100455D2\n".data)
        cancelAtSecondCheck =
      { sent := ["S20500100011D9\n".data, "S20500100122C7\n".data,
          terminatorRecord],
        errors := 0, startAddr := 4096, cancelled := false }) := by
  refine ⟨by decide, by decide, by decide⟩

/-- Counterexample to claim C7: under dialect B, setting the accumulator to
`0x0A` transmits `A  0A   ` followed by `R` — 9 bytes in total, not the 10
bytes the claim states (the accumulator command is 8 characters wide; only
the program-counter command is 10). -/
theorem claim_c7_counterexample :
    ((changeReg { connected := true } Mode.mode134 RegSel.a 10).2.flatten
        ).length ≠ 10 ∧
    (changeReg { connected := true } Mode.mode134 RegSel.a 10).2.flatten =
      "A  0A   R".data := by
  constructor <;> decide

/-- Claim C7 as amended: under dialect B every handled register-set command
writes the value into fixed columns of a space-padded line followed by a
bare `R`; the program-counter line is 10 characters and the other register
lines are 8 characters (for byte-sized values), so setting the accumulator
to `0x0A` transmits exactly `A  0A   ` then `R`, 9 bytes in total. -/
theorem claim_c7_fixed_columns :
    (∀ n : Nat, ((regCmdB RegSel.pc n).getD []).length = 10) ∧
    (∀ n : Nat, n ≤ 255 →
      ((regCmdB RegSel.sr n).getD []).length = 8 ∧
      ((regCmdB RegSel.a n).getD []).length = 8 ∧
      ((regCmdB RegSel.x n).getD []).length = 8 ∧
      ((regCmdB RegSel.y n).getD []).length = 8 ∧
      ((regCmdB RegSel.sp n).getD []).length = 8) ∧
    changeReg { connected := true } Mode.mode134 RegSel.a 10 =
      ({ connected := true }, ["A  0A   ".data, ['R']]) := by
  refine ⟨?_, ?_, by decide⟩
  · intro n
    simp [regCmdB, hexPad4_length (n % 65536) (Nat.mod_lt _ (by omega))]
  · intro n hn
    have h2 : (hexPad 2 n).length = 2 := hexPad2_length n (by omega)
    have hsr : (hexPad 2 (n % 256)).length = 2 :=
      hexPad2_length _ (Nat.mod_lt _ (by omega))
    refine ⟨?_, ?_, ?_, ?_, ?_⟩ <;> simp [regCmdB, h2, hsr]

/-- Witness for claim C7's amended statement at the accumulator value of the
claim. -/
theorem claim_c7_witness :
    ((regCmdB RegSel.a 10).getD []).length = 8 :=
  (claim_c7_fixed_columns.2.1 10 (by decide)).2.1

/-- Claim C8 is false: `uploadSrec` applies no count adjustment to a type-0
(header) record, and a header record with a nonzero count does *not* end
processing like the HEX end-of-file rule — on `S003...` followed by a data
record, the data record is still converted and sent. -/
theorem claim_c8_counterexample :
    (uploadSrec ("S0030000FC\nS1048000AAD1\n".data) noCancel).sent ≠
      [terminatorRecord] ∧
    (uploadSrec ("S0030000FC\nS1048000AAD1\n".data) noCancel).sent =
      ["S205008000AAD0\n".data, terminatorRecord] := by
  constructor <;> decide

/-- Claim C8 as amended: a record whose type maps to 0 receives no
count-minus-3/minus-4 adjustment — the zero test sees the unadjusted count
variable, i.e. the scanned raw count field or, when the scan matched
nothing, its stale previous value.  For every state and input whose count
scan does not hit end-of-file, the loop ends at the type-0 record exactly
when that value is zero (then like the end-of-file rule: nothing is
emitted, no error is logged, and only the terminator follows), and
otherwise the header record is skipped — no load record, no error, no
start-address capture — and processing continues with the following
records. -/
theorem claim_c8_header_records :
    (∀ (st : SrecSt) (input : List Char) (c0 : Int) (r1 : List Char),
      scanUpdI 2 st.count input = some (c0, r1) →
      srecRecord st 0 input =
        if c0 = 0 then ({ st with count := c0 }, r1, true)
        else ({ st with count := c0 }, r1, false)) ∧
    (uploadSrec ("S000".data) noCancel).sent = [terminatorRecord] ∧
    uploadSrec ("S0030000FC\nS1048000AAD1\n".data) noCancel =
      { sent := ["S205008000AAD0\n".data, terminatorRecord], errors := 0,
        startAddr := 32768, cancelled := false } := by
  refine ⟨?_, by decide, by decide⟩
  intro st input c0 r1 h
  unfold srecRecord
  rw [h]
  by_cases hc : c0 = 0
  · simp [hc]
  · simp [hc]

/-- Witness for claim C8's amended statement: one skipped header (raw count
field `03`) and one end-of-file-like header (raw count field `00`). -/
theorem claim_c8_witness :
    (srecRecord srecInit 0 ("030000FC\n".data) =
      if (3 : Int) = 0
      then ({ srecInit with count := 3 }, "0000FC\n".data, true)
      else ({ srecInit with count := 3 }, "0000FC\n".data, false)) ∧
    (srecRecord srecInit 0 ("000000FC\n".data) =
      if (0 : Int) = 0
      then ({ srecInit with count := 0 }, "0000FC\n".data, true)
      else ({ srecInit with count := 0 }, "0000FC\n".data, false)) :=
  ⟨claim_c8_header_records.1 srecInit ("030000FC\n".data) 3
      ("0000FC\n".data) (by decide),
    claim_c8_header_records.1 srecInit ("000000FC\n".data) 0
      ("0000FC\n".data) (by decide)⟩

/-- Claim C9: whenever the connection flag is false, every send operation
(byte, string, register set, register refresh, jump, call, memory dump)
transmits nothing and leaves the state unchanged, and a failed connect
attempt leaves the flag false. -/
theorem claim_c9_disconnected_noop (st : ConnSt)
    (h : st.connected = false) :
    (∀ c, sendChar st c = (st, [])) ∧
    (∀ s, sendString st s = (st, [])) ∧
    (∀ mode reg num, changeReg st mode reg num = (st, [])) ∧
    (∀ mode, updateRegs st mode = (st, [])) ∧
    (∀ mode addr, jml st mode addr = (st, [])) ∧
    (∀ mode addr, jsl st mode addr = (st, [])) ∧
    (∀ mode addr, dump st mode addr = (st, [])) ∧
    (∀ cfg, (connect st false cfg).connected = false) := by
  refine ⟨?_, ?_, ?_, ?_, ?_, ?_, ?_, ?_⟩ <;>
    intros <;>
    simp [sendChar, sendString, changeReg, updateRegs, jml, jsl, dump,
      connect, h]

/-- Witness for claim C9 at the disconnected state. -/
theorem claim_c9_witness :
    changeReg { connected := false } Mode.mode134 RegSel.a 10 =
      ({ connected := false }, []) ∧
    sendString { connected := false } ("AB".data) =
      ({ connected := false }, []) :=
  ⟨(claim_c9_disconnected_noop { connected := false } rfl).2.2.1
      Mode.mode134 RegSel.a 10,
    (claim_c9_disconnected_noop { connected := false } rfl).2.1 ("AB".data)⟩

/-- Claim C10: under dialect B only the program counter (16 bits) and the
status register (8 bits) mask the value, keeping their commands at 10 and
8 characters for every value; the accumulator (likewise X, Y, SP) is
unmasked — `0x100` and `0x100 % 0x100` give different commands — so values
up to `0xFF` keep the fixed 8-character layout while larger values widen
the hex field and shift the trailing space columns right. -/
theorem claim_c10_dialect_b_masking :
    (∀ n : Nat, regCmdB RegSel.pc n = regCmdB RegSel.pc (n % 65536) ∧
      ((regCmdB RegSel.pc n).getD []).length = 10) ∧
    (∀ n : Nat, regCmdB RegSel.sr n = regCmdB RegSel.sr (n % 256) ∧
      ((regCmdB RegSel.sr n).getD []).length = 8) ∧
    regCmdB RegSel.a 256 ≠ regCmdB RegSel.a (256 % 256) ∧
    (∀ n : Nat, n ≤ 255 →
      ((regCmdB RegSel.a n).getD []).length = 8 ∧
      ((regCmdB RegSel.x n).getD []).length = 8 ∧
      ((regCmdB RegSel.y n).getD []).length = 8 ∧
      ((regCmdB RegSel.sp n).getD []).length = 8) ∧
    (∀ n : Nat, 255 < n → 8 < ((regCmdB RegSel.a n).getD []).length ∧
      ((regCmdB RegSel.a n).getD []).drop
          (((regCmdB RegSel.a n).getD []).length - 3) = [' ', ' ', ' ']) := by
  refine ⟨?_, ?_, by decide, ?_, ?_⟩
  · intro n
    have e : n % 65536 % 65536 = n % 65536 := by omega
    constructor
    · simp [regCmdB, e]
    · simp [regCmdB, hexPad4_length (n % 65536) (Nat.mod_lt _ (by omega))]
  · intro n
    have e : n % 256 % 256 = n % 256 := by omega
    constructor
    · simp [regCmdB, e]
    · simp [regCmdB, hexPad2_length (n % 256) (Nat.mod_lt _ (by omega))]
  · intro n hn
    have h2 : (hexPad 2 n).length = 2 := hexPad2_length n (by omega)
    refine ⟨?_, ?_, ?_, ?_⟩ <;> simp [regCmdB, h2]
  · intro n hn
    have hL := toHexList_length_ge3 n (by omega)
    have hlen : (hexPad 2 n).length = (toHexList n).length := by
      rw [hexPad_length]; omega
    constructor
    · simp [regCmdB, hlen]; omega
    · have e : ('A' :: ' ' :: ' ' :: (hexPad 2 n ++ [' ', ' ', ' ']) :
          List Char) = ('A' :: ' ' :: ' ' :: hexPad 2 n) ++ [' ', ' ', ' '] :=
        by simp
      simp only [regCmdB, Option.getD_some, e]
      rw [show (('A' :: ' ' :: ' ' :: hexPad 2 n) ++
            ([' ', ' ', ' '] : List Char)).length - 3 =
          ('A' :: ' ' :: ' ' :: hexPad 2 n).length from by simp]
      exact List.drop_left _ _

/-- Witness for claim C10 below and above the byte bound. -/
theorem claim_c10_witness :
    ((regCmdB RegSel.x 10).getD []).length = 8 ∧
    8 < ((regCmdB RegSel.a 256).getD []).length :=
  ⟨(claim_c10_dialect_b_masking.2.2.2.1 10 (by decide)).2.1,
    (claim_c10_dialect_b_masking.2.2.2.2 256 (by decide)).1⟩
